import Mathlib

/-!
Verification of `alsa2pipe.c` (pulse-alsa2pipe): a shallow embedding of the
silence detector (`silent`) and of the streaming loop (`run`), together with
theorems settling the specification claims about them.

Conventions of the embedding:
* A captured block is a flat list of bytes (each `< 256` in intended use);
  `sampleAt buf bytes i` reinterprets bytes `[bytes*i, bytes*(i+1))` as a
  little-endian two's-complement integer, matching the C casts
  `int8_t* / int16_t* / int32_t*` applied to the buffer (for the equality
  comparisons performed by `silent`, byte order is irrelevant).
* Machine integers that can only hold small non-negative values in the C
  program (`silence`, `channels`, frame counts) are modelled as `Nat`.
-/

namespace Alsa2pipe

/-- The sample formats accepted by `main` (`s8, u8, s16le, s16be, s24le,
s24be, s32le, s32be`). -/
inductive Format where
  | s8 | u8 | s16le | s16be | s24le | s24be | s32le | s32be
deriving DecidableEq, Repr

/-- `snd_pcm_format_width`: the nominal bit width of one sample. -/
def formatWidth : Format → Nat
  | .s8 => 8
  | .u8 => 8
  | .s16le => 16
  | .s16be => 16
  | .s24le => 24
  | .s24be => 24
  | .s32le => 32
  | .s32be => 32

/-- Combine a list of bytes, least significant first, into a `Nat`. -/
def readLE : List Nat → Nat
  | [] => 0
  | b :: rest => b % 256 + 256 * readLE rest

/-- Reinterpret a `w`-bit unsigned value as two's-complement signed. -/
def toSigned (w : Nat) (v : Nat) : Int :=
  if v < 2 ^ (w - 1) then (v : Int) else (v : Int) - 2 ^ w

/-- `data[i]` where `data` is the buffer viewed as an array of signed
integers of `bytes` bytes each (the C `int8_t* / int16_t* / int32_t*`
element reads). -/
def sampleAt (buf : List Nat) (bytes : Nat) (i : Nat) : Int :=
  toSigned (8 * bytes) (readLE ((buf.drop (bytes * i)).take bytes))

/-- The comparison loop of `silent`:
`for (i = channels; i < frames; i++) if (data[i] != data[i % channels]) return 0;`
with elements of `bytes` bytes each. -/
def scanEq (buf : List Nat) (bytes channels frames : Nat) : Bool :=
  (List.range' channels (frames - channels)).all fun i =>
    decide (sampleAt buf bytes i = sampleAt buf bytes (i % channels))

/-- The C function `silent(buffer, frames, format, channels)`:
returns false when `channels == 0 || frames <= channels`; otherwise
dispatches on `snd_pcm_format_width(format)` (8/16/32 run the scan loop,
anything else falls to the `default:` case returning 0). -/
def silent (buf : List Nat) (frames : Nat) (format : Format)
    (channels : Nat) : Bool :=
  if channels = 0 || frames ≤ channels then
    false
  else
    match formatWidth format with
    | 8 => scanEq buf 1 channels frames
    | 16 => scanEq buf 2 channels frames
    | 32 => scanEq buf 4 channels frames
    | _ => false

theorem scanEq_eq_true_iff (buf : List Nat) (bytes channels frames : Nat)
    (h : channels ≤ frames) :
    scanEq buf bytes channels frames = true ↔
      ∀ i, channels ≤ i → i < frames →
        sampleAt buf bytes i = sampleAt buf bytes (i % channels) := by
  unfold scanEq
  rw [List.all_eq_true]
  constructor
  · intro hall i h1 h2
    have hmem : i ∈ List.range' channels (frames - channels) := by
      rw [List.mem_range'_1]
      omega
    simpa using hall i hmem
  · intro hall i hmem
    rw [List.mem_range'_1] at hmem
    simpa using hall i hmem.1 (by omega)

/-! ## The streaming loop `run` -/

/-- The mutable state of `run` that survives across loop iterations:
`connected` (the C `int connected`), `silence` (the C `int silence`,
always non-negative), and whether `pipefd` currently refers to an open
pipe (`pipeOpen`). -/
structure St where
  connected : Bool
  silence : Nat
  pipeOpen : Bool
deriving DecidableEq, Repr

/-- Initial state of `run`: `connected = 0`, `silence = 0`, `pipefd` not
yet opened. -/
def state0 : St := { connected := false, silence := 0, pipeOpen := false }

/-- Outcome of `size = snd_pcm_readi(handle, buffer, frames)` as the code
discriminates it: `full b` is `size == frames` (with `b` the result of
`silent(buffer, frames, format, channels)` on the freshly read block),
`zero` is `size == 0`, `nodev` is `size == -ENODEV`, and `shortErr` is
any other partial or error read. -/
inductive ReadRes where
  | full (isSilent : Bool)
  | zero
  | nodev
  | shortErr
deriving DecidableEq, Repr

/-- Outcome of `open(pipename, O_WRONLY | O_NONBLOCK | O_CLOEXEC)`. -/
inductive OpenRes where
  | ok
  | fail
deriving DecidableEq, Repr

/-- Outcome of `rv = write(pipefd, buffer, bufsize)`: `ok` is `rv != -1`,
`wouldBlock` is `rv == -1` with `errno` in `{EAGAIN, EWOULDBLOCK}`,
`err` is `rv == -1` with any other `errno`. -/
inductive WriteRes where
  | ok
  | wouldBlock
  | err
deriving DecidableEq, Repr

/-- Why `run` returned. -/
inductive Exit where
  | deviceRemoved
  | openFailed
  | writeFailed
deriving DecidableEq, Repr

/-- `runhook`: forks and execs the hook program, ignoring the child.
The parent's behaviour does not depend on the fork result; the returned
`Bool` only records whether a child was actually spawned. -/
def runhook (forkOk : Bool) : Bool := forkOk

/-- Everything one loop iteration did: the state left in the C variables
(`st`), whether and why `run` returned (`exit = none` means the loop goes
on to the next read), how many times each hook program was launched
(`dHooks` / `cHooks`), whether `close(pipefd)` was called (`closed`),
whether `write` was called (`wrote`), the seconds passed to `nanosleep`
(`sleepSecs`, 0 when no sleep), and whether each `runhook` call actually
spawned a child (`dSpawned` / `cSpawned`). -/
structure StepOut where
  st : St
  exit : Option Exit
  dHooks : Nat
  cHooks : Nat
  closed : Bool
  wrote : Bool
  sleepSecs : Nat
  dSpawned : Bool
  cSpawned : Bool
deriving DecidableEq, Repr

/-- Lines 131-137: the silence-detection update of `silence` on a
full-size read. `b` is the result of `silent(...)`. -/
def detectStep (smax silence : Nat) (b : Bool) : Nat :=
  if b then
    if silence < smax then silence + 1 else silence
  else 0

/-- State after the detection update. -/
def afterDetect (smax : Nat) (s : St) (b : Bool) : St :=
  { s with silence := detectStep smax s.silence b }

/-- Line 165: the guard `connected && silence == silence_max` of the
silence-disconnect trigger (evaluated after the detection update). -/
def trigFires (smax : Nat) (s : St) : Bool :=
  s.connected && (s.silence == smax)

/-- Lines 165-177: the silence-disconnect trigger. When it fires the pipe
is closed, `silence` is incremented once more, and `connected` becomes 0. -/
def afterTrigger (smax : Nat) (s : St) : St :=
  if trigFires smax s then
    { connected := false, silence := s.silence + 1, pipeOpen := false }
  else s

/-- Line 179: the guard `!connected && silence < silence_max` of the
reconnection block. -/
def reconnects (smax : Nat) (s : St) : Bool :=
  !s.connected && decide (s.silence < smax)

/-- Lines 139-152: the `if (connected)` disconnect bookkeeping shared by
the short-read and device-removed paths: log, clear `connected`, run the
disconnect hook when configured, close the pipe. Returns the updated
state, the number of hook launches, whether `close` was called, and
whether the hook child spawned. -/
def discBookkeeping (od spd : Bool) (s : St) : St × Nat × Bool × Bool :=
  if s.connected then
    ({ s with connected := false, pipeOpen := false },
     if od then 1 else 0, true, od && runhook spd)
  else (s, 0, false, false)

/-- Lines 195-207: the write block `if (silence < silence_max) { rv =
write(...); ... }`, given the state `s3` at that point and the pending
event fields accumulated earlier in the iteration. -/
def writePhase (smax : Nat) (s3 : St) (wr : WriteRes)
    (dh ch : Nat) (cl dsp csp : Bool) : StepOut :=
  if s3.silence < smax then
    match wr with
    | .ok =>
        { st := s3, exit := none, dHooks := dh, cHooks := ch, closed := cl,
          wrote := true, sleepSecs := 0, dSpawned := dsp, cSpawned := csp }
    | .wouldBlock =>
        { st := s3, exit := none, dHooks := dh, cHooks := ch, closed := cl,
          wrote := true, sleepSecs := 0, dSpawned := dsp, cSpawned := csp }
    | .err =>
        { st := s3, exit := some .writeFailed, dHooks := dh, cHooks := ch,
          closed := cl, wrote := true, sleepSecs := 0, dSpawned := dsp,
          cSpawned := csp }
  else
    { st := s3, exit := none, dHooks := dh, cHooks := ch, closed := cl,
      wrote := false, sleepSecs := 0, dSpawned := dsp, cSpawned := csp }

/-- Lines 131-207 for a full-size read (`size == frames`): detection,
silence-disconnect trigger, reconnection, write. `oc`/`od` say whether
`onconnect`/`ondisconnect` hook paths are configured (non-NULL);
`spd`/`spc` are the fork outcomes of the respective `runhook` calls. -/
def stepFull (smax : Nat) (oc od spd spc : Bool) (s : St) (b : Bool)
    (opn : OpenRes) (wr : WriteRes) : StepOut :=
  let s1 := afterDetect smax s b
  let trig := trigFires smax s1
  let s2 := afterTrigger smax s1
  let dh := if trig && od then 1 else 0
  let dsp := trig && od && runhook spd
  if reconnects smax s2 then
    match opn with
    | .fail =>
        { st := s2, exit := some .openFailed, dHooks := dh, cHooks := 0,
          closed := trig, wrote := false, sleepSecs := 0, dSpawned := dsp,
          cSpawned := false }
    | .ok =>
        writePhase smax { s2 with connected := true, pipeOpen := true } wr
          dh (if oc then 1 else 0) trig dsp (oc && runhook spc)
  else
    writePhase smax s2 wr dh 0 trig dsp false

/-- One iteration of the `for (;;)` loop of `run` (lines 123-208), given
the read outcome `rr` and, for the paths that need them, the open outcome
`opn` and write outcome `wr`. -/
def step (smax : Nat) (oc od spd spc : Bool) (s : St) (rr : ReadRes)
    (opn : OpenRes) (wr : WriteRes) : StepOut :=
  match rr with
  | .zero =>
      -- if (size == 0) continue;
      { st := s, exit := none, dHooks := 0, cHooks := 0, closed := false,
        wrote := false, sleepSecs := 0, dSpawned := false, cSpawned := false }
  | .nodev =>
      -- disconnect bookkeeping if connected, then return
      let d := discBookkeeping od spd s
      { st := d.1, exit := some .deviceRemoved, dHooks := d.2.1, cHooks := 0,
        closed := d.2.2.1, wrote := false, sleepSecs := 0, dSpawned := d.2.2.2,
        cSpawned := false }
  | .shortErr =>
      -- disconnect bookkeeping if connected, sleep 1s, continue
      let d := discBookkeeping od spd s
      { st := d.1, exit := none, dHooks := d.2.1, cHooks := 0,
        closed := d.2.2.1, wrote := false, sleepSecs := 1, dSpawned := d.2.2.2,
        cSpawned := false }
  | .full b => stepFull smax oc od spd spc s b opn wr

/-- One loop iteration's worth of environment input. -/
structure Input where
  rr : ReadRes
  opn : OpenRes
  wr : WriteRes
  spd : Bool
  spc : Bool
deriving DecidableEq, Repr

/-- Run the loop against a finite prefix of environment inputs, stopping
as soon as an iteration makes `run` return. Produces the final state, why
the loop stopped (`none`: inputs exhausted with the loop still going),
and the number of reads performed. -/
def runLoop (smax : Nat) (oc od : Bool) (s : St) :
    List Input → St × Option Exit × Nat
  | [] => (s, none, 0)
  | inp :: rest =>
      let out := step smax oc od inp.spd inp.spc s inp.rr inp.opn inp.wr
      match out.exit with
      | some e => (out.st, some e, 1)
      | none =>
          let r := runLoop smax oc od out.st rest
          (r.1, r.2.1, r.2.2 + 1)

/-- The states the loop can be in at the top of an iteration. -/
inductive Reachable (smax : Nat) : St → Prop where
  | init : Reachable smax state0
  | next (s : St) (oc od spd spc : Bool) (rr : ReadRes) (opn : OpenRes)
      (wr : WriteRes) : Reachable smax s →
      (step smax oc od spd spc s rr opn wr).exit = none →
      Reachable smax (step smax oc od spd spc s rr opn wr).st

/-! ## Claims about the silence detector -/

/-- C9: for every block content, sample format and frame count, `silent`
returns false whenever `channels = 0` or `frames ≤ channels`. -/
theorem silent_too_few_frames (buf : List Nat) (frames : Nat) (f : Format)
    (channels : Nat) (h : channels = 0 ∨ frames ≤ channels) :
    silent buf frames f channels = false := by
  rcases h with h | h <;> simp [silent, h]

/-- Witness for `silent_too_few_frames` at a concrete input. -/
theorem silent_too_few_frames_witness :
    silent [9, 9, 9] 3 .s8 0 = false :=
  silent_too_few_frames [9, 9, 9] 3 .s8 0 (Or.inl rfl)

/-- C10: for every block content, `silent` returns false whenever the
format's element width is none of 8, 16, 32 (the 24-bit formats fall to
the `default:` case and are always classified non-silent). -/
theorem silent_unsupported_width (buf : List Nat) (frames : Nat)
    (f : Format) (channels : Nat)
    (h : formatWidth f ≠ 8 ∧ formatWidth f ≠ 16 ∧ formatWidth f ≠ 32) :
    silent buf frames f channels = false := by
  cases f <;> simp_all [silent, formatWidth]

/-- Witness for `silent_unsupported_width` at a concrete input: a 24-bit
block whose post-first samples all equal the first frame is still
classified non-silent. -/
theorem silent_unsupported_width_witness :
    silent [7, 7, 7, 7, 7, 7] 2 .s24le 1 = false :=
  silent_unsupported_width [7, 7, 7, 7, 7, 7] 2 .s24le 1 (by decide)

/-- Counterexample to C1 as stated: with `channels = 2`, `frames = 3`
(8-bit), the scan loop stops at sample index `frames = 3`, so sample
index 5 — inside the claimed range `[channels, frames*channels)` — is
never examined: the block `[0,0,0,0,0,1]` differs from the first frame at
sample 5 yet `silent` returns true, and flipping sample 5 of the all-zero
block does not make `silent` return false. -/
theorem silent_full_range_cex :
    silent [0, 0, 0, 0, 0, 0] 3 .s8 2 = true ∧
    silent [0, 0, 0, 0, 0, 1] 3 .s8 2 = true ∧
    2 ≤ 5 ∧ 5 < 3 * 2 ∧
    sampleAt [0, 0, 0, 0, 0, 1] 1 5 ≠ sampleAt [0, 0, 0, 0, 0, 1] 1 (5 % 2) := by
  decide

/-- C1 (amended): for `channels ≥ 1 < frames` and width in {8,16,32},
`silent` returns true iff every sample index `i` with
`channels ≤ i < frames` (the first `frames` interleaved samples only, not
`frames * channels`) equals the sample at the same channel offset in the
first frame; flipping a single sample at an index in `[channels, frames)`
of such an all-equal block makes it return false. -/
theorem silent_iff_prefix_equal (buf : List Nat) (frames channels : Nat)
    (f : Format) (h1 : 1 ≤ channels) (h2 : channels < frames)
    (h3 : formatWidth f = 8 ∨ formatWidth f = 16 ∨ formatWidth f = 32) :
    (silent buf frames f channels = true ↔
      ∀ i, channels ≤ i → i < frames →
        sampleAt buf (formatWidth f / 8) i
          = sampleAt buf (formatWidth f / 8) (i % channels)) ∧
    (∀ (buf2 : List Nat) (j : Nat), channels ≤ j → j < frames →
      (∀ i, i ≠ j →
        sampleAt buf2 (formatWidth f / 8) i = sampleAt buf (formatWidth f / 8) i) →
      sampleAt buf2 (formatWidth f / 8) j ≠ sampleAt buf (formatWidth f / 8) j →
      (∀ i, channels ≤ i → i < frames →
        sampleAt buf (formatWidth f / 8) i
          = sampleAt buf (formatWidth f / 8) (i % channels)) →
      silent buf2 frames f channels = false) := by
  have key : ∀ b : List Nat,
      silent b frames f channels = true ↔
        ∀ i, channels ≤ i → i < frames →
          sampleAt b (formatWidth f / 8) i
            = sampleAt b (formatWidth f / 8) (i % channels) := by
    intro b
    have hch : ¬(channels = 0) := by omega
    have hfr : ¬(frames ≤ channels) := by omega
    rcases h3 with h | h | h <;>
      · rw [silent, h]
        simp only [hch, hfr, decide_eq_true_eq, Bool.or_self,
          decide_False, Bool.or_false, Bool.false_or, if_false]
        exact scanEq_eq_true_iff b _ channels frames (le_of_lt h2)
  refine ⟨key buf, ?_⟩
  intro buf2 j hj1 hj2 hagree hdiff hall
  by_contra hcon
  rw [Bool.not_eq_false, key buf2] at hcon
  have hjm : j % channels ≠ j := by
    have : j % channels < channels := Nat.mod_lt j (by omega)
    omega
  have h5 := hcon j hj1 hj2
  rw [hagree (j % channels) hjm] at h5
  exact hdiff (h5.trans (hall j hj1 hj2).symm)

/-- Witness for `silent_iff_prefix_equal` at a concrete input. -/
theorem silent_iff_prefix_equal_witness :
    silent [5, 5] 2 .s8 1 = true ↔
      ∀ i, 1 ≤ i → i < 2 →
        sampleAt [5, 5] (formatWidth .s8 / 8) i
          = sampleAt [5, 5] (formatWidth .s8 / 8) (i % 1) :=
  (silent_iff_prefix_equal [5, 5] 2 1 .s8 (by decide) (by decide)
    (Or.inl rfl)).1

/-! ## Helper lemmas about the loop body -/

theorem writePhase_st (smax : Nat) (s3 : St) (wr : WriteRes) (dh ch : Nat)
    (cl dsp csp : Bool) : (writePhase smax s3 wr dh ch cl dsp csp).st = s3 := by
  rw [writePhase.eq_def]; split
  · cases wr <;> rfl
  · rfl

theorem writePhase_of_not_lt (smax : Nat) (s3 : St) (wr : WriteRes)
    (dh ch : Nat) (cl dsp csp : Bool) (h : ¬ s3.silence < smax) :
    writePhase smax s3 wr dh ch cl dsp csp =
      { st := s3, exit := none, dHooks := dh, cHooks := ch, closed := cl,
        wrote := false, sleepSecs := 0, dSpawned := dsp, cSpawned := csp } := by
  rw [writePhase.eq_def, if_neg h]

theorem writePhase_dHooks (smax : Nat) (s3 : St) (wr : WriteRes) (dh ch : Nat)
    (cl dsp csp : Bool) : (writePhase smax s3 wr dh ch cl dsp csp).dHooks = dh := by
  rw [writePhase.eq_def]; split
  · cases wr <;> rfl
  · rfl

theorem writePhase_cHooks (smax : Nat) (s3 : St) (wr : WriteRes) (dh ch : Nat)
    (cl dsp csp : Bool) : (writePhase smax s3 wr dh ch cl dsp csp).cHooks = ch := by
  rw [writePhase.eq_def]; split
  · cases wr <;> rfl
  · rfl

theorem writePhase_closed (smax : Nat) (s3 : St) (wr : WriteRes) (dh ch : Nat)
    (cl dsp csp : Bool) : (writePhase smax s3 wr dh ch cl dsp csp).closed = cl := by
  rw [writePhase.eq_def]; split
  · cases wr <;> rfl
  · rfl

theorem writePhase_wrote (smax : Nat) (s3 : St) (wr : WriteRes) (dh ch : Nat)
    (cl dsp csp : Bool) :
    (writePhase smax s3 wr dh ch cl dsp csp).wrote = decide (s3.silence < smax) := by
  rw [writePhase.eq_def]; split
  · rename_i h; cases wr <;> simp [h]
  · rename_i h; simp [h]

theorem writePhase_exit (smax : Nat) (s3 : St) (wr : WriteRes) (dh ch : Nat)
    (cl dsp csp : Bool) :
    (writePhase smax s3 wr dh ch cl dsp csp).exit =
      if s3.silence < smax ∧ wr = .err then some .writeFailed else none := by
  rw [writePhase.eq_def]; split
  · rename_i h; cases wr <;> simp [h]
  · rename_i h
    rw [if_neg fun hcon => h hcon.1]

theorem writePhase_wouldBlock_eq_ok (smax : Nat) (s3 : St) (dh ch : Nat)
    (cl dsp csp : Bool) :
    writePhase smax s3 .wouldBlock dh ch cl dsp csp =
      writePhase smax s3 .ok dh ch cl dsp csp := by
  rfl

/-! ## Claims about the loop -/

/-- Counterexample to C2 as stated: a short read with the counter at 3
leaves the counter at 3 — the code's short-read path never assigns
`silence`, so the counter is not reset to 0. -/
theorem silence_short_read_cex :
    (step 5 true true true true
        { connected := true, silence := 3, pipeOpen := true }
        .shortErr .ok .ok).st.silence ≠ 0 := by
  decide

/-- C2 (amended): the Silence Run Counter is unchanged — not reset — by
any read that is not full-size (short/error read, device-removed read,
and zero-length read alike). -/
theorem silence_unchanged_on_non_full_read (smax : Nat) (oc od spd spc : Bool)
    (s : St) (opn : OpenRes) (wr : WriteRes) :
    (step smax oc od spd spc s .shortErr opn wr).st.silence = s.silence ∧
    (step smax oc od spd spc s .nodev opn wr).st.silence = s.silence ∧
    (step smax oc od spd spc s .zero opn wr).st.silence = s.silence := by
  refine ⟨?_, ?_, rfl⟩ <;>
    · rw [step]
      simp only [discBookkeeping]
      split <;> rfl

/-- C3: if the loop is Connected and the detection update brings the
counter exactly to the threshold, the disconnect actions run (pipe
closed, disconnect hook invoked when configured), the state becomes
Disconnected with the counter at `threshold + 1`, and the loop continues;
and in any later iteration that is Disconnected with the counter
saturated at `threshold + 1`, a silent full-size block leaves the counter
at `threshold + 1` with no disconnect action — the trigger cannot fire
again until a non-silent block resets the counter. -/
theorem silence_trigger_once (smax : Nat) (oc od spd spc : Bool) (s : St)
    (b : Bool) (opn : OpenRes) (wr : WriteRes) :
    (s.connected = true → detectStep smax s.silence b = smax →
      (step smax oc od spd spc s (.full b) opn wr).closed = true ∧
      (od = true → (step smax oc od spd spc s (.full b) opn wr).dHooks = 1) ∧
      (step smax oc od spd spc s (.full b) opn wr).st.connected = false ∧
      (step smax oc od spd spc s (.full b) opn wr).st.silence = smax + 1 ∧
      (step smax oc od spd spc s (.full b) opn wr).exit = none ∧
      (step smax oc od spd spc s (.full b) opn wr).wrote = false) ∧
    (s.connected = false → s.silence = smax + 1 → b = true →
      (step smax oc od spd spc s (.full b) opn wr).st.silence = smax + 1 ∧
      (step smax oc od spd spc s (.full b) opn wr).st.connected = false ∧
      (step smax oc od spd spc s (.full b) opn wr).closed = false ∧
      (step smax oc od spd spc s (.full b) opn wr).dHooks = 0 ∧
      (step smax oc od spd spc s (.full b) opn wr).exit = none ∧
      (step smax oc od spd spc s (.full b) opn wr).wrote = false) := by
  constructor
  · intro hc hd
    have h1 : afterDetect smax s b = { s with silence := smax } := by
      rw [afterDetect, hd]
    have htrig : trigFires smax { s with silence := smax } = true := by
      simp [trigFires, hc]
    have h2 : afterTrigger smax { s with silence := smax } =
        { connected := false, silence := smax + 1, pipeOpen := false } := by
      rw [afterTrigger, if_pos htrig]
    have hrec : reconnects smax
        { connected := false, silence := smax + 1, pipeOpen := false } = false := by
      simp [reconnects]
    have hnl : ¬ ((St.mk false (smax + 1) false).silence < smax) := by
      show ¬ (smax + 1 < smax); omega
    rw [step, stepFull.eq_def]
    simp only [h1, htrig, h2, hrec, Bool.false_eq_true, if_false]
    rw [writePhase_of_not_lt _ _ _ _ _ _ _ _ hnl]
    refine ⟨rfl, ?_, rfl, rfl, rfl, rfl⟩
    intro hod
    simp [hod]
  · intro hc hs hb
    have hd : detectStep smax s.silence b = smax + 1 := by
      rw [detectStep, if_pos hb, hs, if_neg (by omega)]
    have h1 : afterDetect smax s b = { s with silence := smax + 1 } := by
      rw [afterDetect, hd]
    have htrig : trigFires smax { s with silence := smax + 1 } = false := by
      simp [trigFires, hc]
    have h2 : afterTrigger smax { s with silence := smax + 1 } =
        { s with silence := smax + 1 } := by
      simp [afterTrigger, htrig]
    have hlt : ¬ (smax + 1 < smax) := by omega
    have hrec : reconnects smax { s with silence := smax + 1 } = false := by
      simp [reconnects, hc, hlt]
    have hnl : ¬ ((St.mk s.connected (smax + 1) s.pipeOpen).silence < smax) := by
      show ¬ (smax + 1 < smax); omega
    rw [step, stepFull.eq_def]
    simp only [h1, htrig, h2, hrec, Bool.false_eq_true, if_false]
    rw [writePhase_of_not_lt _ _ _ _ _ _ _ _ hnl]
    simp [hc]

/-- Witness for `silence_trigger_once`: threshold 2, Connected, counter 1,
silent block — the trigger fires. -/
theorem silence_trigger_once_witness :
    (step 2 true true true true
        { connected := true, silence := 1, pipeOpen := true }
        (.full true) .ok .ok).closed = true ∧
    (true = true → (step 2 true true true true
        { connected := true, silence := 1, pipeOpen := true }
        (.full true) .ok .ok).dHooks = 1) ∧
    (step 2 true true true true
        { connected := true, silence := 1, pipeOpen := true }
        (.full true) .ok .ok).st.connected = false ∧
    (step 2 true true true true
        { connected := true, silence := 1, pipeOpen := true }
        (.full true) .ok .ok).st.silence = 2 + 1 ∧
    (step 2 true true true true
        { connected := true, silence := 1, pipeOpen := true }
        (.full true) .ok .ok).exit = none ∧
    (step 2 true true true true
        { connected := true, silence := 1, pipeOpen := true }
        (.full true) .ok .ok).wrote = false :=
  (silence_trigger_once 2 true true true true
    { connected := true, silence := 1, pipeOpen := true } true .ok .ok).1
    rfl (by decide)

theorem stepFull_st (smax : Nat) (oc od spd spc : Bool) (s : St) (b : Bool)
    (opn : OpenRes) (wr : WriteRes) :
    (stepFull smax oc od spd spc s b opn wr).st =
      if reconnects smax (afterTrigger smax (afterDetect smax s b)) = true
          ∧ opn = .ok then
        St.mk true (afterTrigger smax (afterDetect smax s b)).silence true
      else afterTrigger smax (afterDetect smax s b) := by
  rcases Bool.eq_false_or_eq_true
      (reconnects smax (afterTrigger smax (afterDetect smax s b))) with hr | hr <;>
    cases opn <;> simp [stepFull.eq_def, hr, writePhase_st]

theorem stepFull_st_silence (smax : Nat) (oc od spd spc : Bool) (s : St)
    (b : Bool) (opn : OpenRes) (wr : WriteRes) :
    (stepFull smax oc od spd spc s b opn wr).st.silence =
      (afterTrigger smax (afterDetect smax s b)).silence := by
  rw [stepFull_st]; split <;> rfl

theorem stepFull_dHooks (smax : Nat) (oc od spd spc : Bool) (s : St)
    (b : Bool) (opn : OpenRes) (wr : WriteRes) :
    (stepFull smax oc od spd spc s b opn wr).dHooks =
      if trigFires smax (afterDetect smax s b) && od then 1 else 0 := by
  rcases Bool.eq_false_or_eq_true
      (reconnects smax (afterTrigger smax (afterDetect smax s b))) with hr | hr <;>
    cases opn <;> simp [stepFull.eq_def, hr, writePhase_dHooks]

theorem stepFull_cHooks (smax : Nat) (oc od spd spc : Bool) (s : St)
    (b : Bool) (opn : OpenRes) (wr : WriteRes) :
    (stepFull smax oc od spd spc s b opn wr).cHooks =
      if reconnects smax (afterTrigger smax (afterDetect smax s b)) = true
          ∧ opn = .ok then (if oc then 1 else 0) else 0 := by
  rcases Bool.eq_false_or_eq_true
      (reconnects smax (afterTrigger smax (afterDetect smax s b))) with hr | hr <;>
    cases opn <;> simp [stepFull.eq_def, hr, writePhase_cHooks]

theorem stepFull_wrote (smax : Nat) (oc od spd spc : Bool) (s : St)
    (b : Bool) (opn : OpenRes) (wr : WriteRes) :
    (stepFull smax oc od spd spc s b opn wr).wrote =
      if reconnects smax (afterTrigger smax (afterDetect smax s b)) = true
          ∧ opn = .fail then false
      else decide ((afterTrigger smax (afterDetect smax s b)).silence < smax) := by
  rcases Bool.eq_false_or_eq_true
      (reconnects smax (afterTrigger smax (afterDetect smax s b))) with hr | hr <;>
    cases opn <;> simp [stepFull.eq_def, hr, writePhase_wrote]

theorem stepFull_exit (smax : Nat) (oc od spd spc : Bool) (s : St)
    (b : Bool) (opn : OpenRes) (wr : WriteRes) :
    (stepFull smax oc od spd spc s b opn wr).exit =
      if reconnects smax (afterTrigger smax (afterDetect smax s b)) = true
          ∧ opn = .fail then some .openFailed
      else if (afterTrigger smax (afterDetect smax s b)).silence < smax
          ∧ wr = .err then some .writeFailed
      else none := by
  rcases Bool.eq_false_or_eq_true
      (reconnects smax (afterTrigger smax (afterDetect smax s b))) with hr | hr <;>
    cases opn <;> simp [stepFull.eq_def, hr, writePhase_exit]

/-- C4, part shared by all states: a write is attempted in an iteration
only when, at the moment of the write, the state is Connected with the
counter strictly below the threshold (the `.st` of a step whose write ran
is exactly the state the write saw). -/
theorem step_wrote_guard (smax : Nat) (oc od spd spc : Bool) (s : St)
    (rr : ReadRes) (opn : OpenRes) (wr : WriteRes)
    (h : (step smax oc od spd spc s rr opn wr).wrote = true) :
    (step smax oc od spd spc s rr opn wr).st.connected = true ∧
    (step smax oc od spd spc s rr opn wr).st.silence < smax := by
  cases rr with
  | zero => exact absurd h (by simp [step])
  | nodev =>
      exfalso
      rw [step] at h
      simp at h
  | shortErr =>
      exfalso
      rw [step] at h
      simp at h
  | full b =>
      rw [step] at h ⊢
      rw [stepFull_wrote] at h
      by_cases hrf : reconnects smax (afterTrigger smax (afterDetect smax s b)) = true
          ∧ opn = .fail
      · rw [if_pos hrf] at h
        exact absurd h (by simp)
      · rw [if_neg hrf] at h
        have hs : (afterTrigger smax (afterDetect smax s b)).silence < smax :=
          of_decide_eq_true h
        rw [stepFull_st]
        by_cases hro : reconnects smax (afterTrigger smax (afterDetect smax s b)) = true
            ∧ opn = .ok
        · rw [if_pos hro]
          exact ⟨rfl, hs⟩
        · rw [if_neg hro]
          refine ⟨?_, hs⟩
          rcases Bool.eq_false_or_eq_true
              (reconnects smax (afterTrigger smax (afterDetect smax s b))) with hr | hr
          · exfalso
            cases opn with
            | ok => exact hro ⟨hr, rfl⟩
            | fail => exact hrf ⟨hr, rfl⟩
          · -- the reconnect guard is false while the counter is below the
            -- threshold, so the loop must already be Connected
            rw [reconnects] at hr
            rcases Bool.eq_false_or_eq_true
                (afterTrigger smax (afterDetect smax s b)).connected with hc | hc
            · exact hc
            · exfalso
              rw [hc] at hr
              simp [hs] at hr

/-- C4: in every reachable state of the loop the pipe is open exactly when
Connected, and a write is attempted only when the state at the write is
Connected with the Silence Run Counter strictly below the threshold. -/
theorem pipe_open_iff_connected (smax : Nat) (s : St)
    (h : Reachable smax s) :
    s.pipeOpen = s.connected ∧
    (∀ oc od spd spc rr opn wr,
      (step smax oc od spd spc s rr opn wr).wrote = true →
      (step smax oc od spd spc s rr opn wr).st.connected = true ∧
      (step smax oc od spd spc s rr opn wr).st.silence < smax) := by
  refine ⟨?_, fun oc od spd spc rr opn wr hw =>
    step_wrote_guard smax oc od spd spc s rr opn wr hw⟩
  induction h with
  | init => rfl
  | next s oc od spd spc rr opn wr _ _ ih =>
      cases rr with
      | zero => exact ih
      | nodev =>
          rw [step]
          simp only [discBookkeeping]
          split <;> simp [ih]
      | shortErr =>
          rw [step]
          simp only [discBookkeeping]
          split <;> simp [ih]
      | full b =>
          rw [step, stepFull_st]
          split
          · rfl
          · rw [afterTrigger]
            split
            · rfl
            · exact ih

/-- Witness for `pipe_open_iff_connected` at the initial state. -/
theorem pipe_open_iff_connected_witness :
    state0.pipeOpen = state0.connected ∧
    (∀ oc od spd spc rr opn wr,
      (step 3 oc od spd spc state0 rr opn wr).wrote = true →
      (step 3 oc od spd spc state0 rr opn wr).st.connected = true ∧
      (step 3 oc od spd spc state0 rr opn wr).st.silence < 3) :=
  pipe_open_iff_connected 3 state0 Reachable.init

/-- C5: on full-size reads the counter update is: a silent block
increments only while strictly below the threshold (so this path alone
never takes the counter above the threshold), a non-silent block resets
the counter to 0, and across consecutive silent full-size blocks the
counter never decreases. -/
theorem silence_counter_rules (smax : Nat) (hpos : 0 < smax) :
    (∀ sil, sil ≤ smax → detectStep smax sil true ≤ smax) ∧
    (∀ oc od spd spc (s : St) opn wr,
      (step smax oc od spd spc s (.full false) opn wr).st.silence = 0) ∧
    (∀ oc od spd spc (s : St) opn wr,
      s.silence ≤ (step smax oc od spd spc s (.full true) opn wr).st.silence) := by
  refine ⟨?_, ?_, ?_⟩
  · intro sil hsil
    rw [detectStep, if_pos rfl]
    split <;> omega
  · intro oc od spd spc s opn wr
    rw [step, stepFull_st_silence]
    have hd : detectStep smax s.silence false = 0 := rfl
    have h1 : afterDetect smax s false = { s with silence := 0 } := by
      rw [afterDetect, hd]
    rw [h1, afterTrigger, trigFires]
    have : (St.silence { s with silence := 0 } == smax) = false := by
      simp only [beq_eq_false_iff_ne, ne_eq]
      show ¬ (0 = smax)
      omega
    rw [this]
    simp
  · intro oc od spd spc s opn wr
    rw [step, stepFull_st_silence, afterTrigger]
    split
    · rw [afterDetect]
      show s.silence ≤ detectStep smax s.silence true + 1
      rw [detectStep, if_pos rfl]
      split <;> omega
    · rw [afterDetect]
      show s.silence ≤ detectStep smax s.silence true
      rw [detectStep, if_pos rfl]
      split <;> omega

/-- Witness for `silence_counter_rules` at threshold 3. -/
theorem silence_counter_rules_witness :
    (∀ sil, sil ≤ 3 → detectStep 3 sil true ≤ 3) ∧
    (∀ oc od spd spc (s : St) opn wr,
      (step 3 oc od spd spc s (.full false) opn wr).st.silence = 0) ∧
    (∀ oc od spd spc (s : St) opn wr,
      s.silence ≤ (step 3 oc od spd spc s (.full true) opn wr).st.silence) :=
  silence_counter_rules 3 (by decide)

theorem stepFull_wouldBlock_eq_ok (smax : Nat) (oc od spd spc : Bool)
    (s : St) (b : Bool) (opn : OpenRes) :
    stepFull smax oc od spd spc s b opn .wouldBlock =
      stepFull smax oc od spd spc s b opn .ok := by
  rcases Bool.eq_false_or_eq_true
      (reconnects smax (afterTrigger smax (afterDetect smax s b))) with hr | hr <;>
    cases opn <;> simp [stepFull.eq_def, hr, writePhase_wouldBlock_eq_ok]

/-- C6: read-outcome handling. A zero-length read changes nothing and the
loop retries immediately; a short/error read does disconnect bookkeeping
when Connected, sleeps exactly 1 second and never terminates the loop;
the device-removed read does disconnect bookkeeping when Connected and
terminates the loop, after which no further read is attempted whatever
inputs would have followed. -/
theorem read_error_paths (smax : Nat) (oc od spd spc : Bool) (s : St)
    (opn : OpenRes) (wr : WriteRes) :
    ((step smax oc od spd spc s .zero opn wr).st = s ∧
     (step smax oc od spd spc s .zero opn wr).exit = none ∧
     (step smax oc od spd spc s .zero opn wr).dHooks = 0 ∧
     (step smax oc od spd spc s .zero opn wr).cHooks = 0 ∧
     (step smax oc od spd spc s .zero opn wr).closed = false ∧
     (step smax oc od spd spc s .zero opn wr).wrote = false ∧
     (step smax oc od spd spc s .zero opn wr).sleepSecs = 0) ∧
    ((step smax oc od spd spc s .shortErr opn wr).exit = none ∧
     (step smax oc od spd spc s .shortErr opn wr).sleepSecs = 1 ∧
     (step smax oc od spd spc s .shortErr opn wr).wrote = false ∧
     (step smax oc od spd spc s .shortErr opn wr).st.connected = false ∧
     (s.connected = true →
       (step smax oc od spd spc s .shortErr opn wr).closed = true ∧
       (od = true → (step smax oc od spd spc s .shortErr opn wr).dHooks = 1)) ∧
     (s.connected = false →
       (step smax oc od spd spc s .shortErr opn wr).st = s ∧
       (step smax oc od spd spc s .shortErr opn wr).dHooks = 0 ∧
       (step smax oc od spd spc s .shortErr opn wr).closed = false)) ∧
    ((step smax oc od spd spc s .nodev opn wr).exit = some .deviceRemoved ∧
     (step smax oc od spd spc s .nodev opn wr).sleepSecs = 0 ∧
     (step smax oc od spd spc s .nodev opn wr).wrote = false ∧
     (s.connected = true →
       (step smax oc od spd spc s .nodev opn wr).closed = true ∧
       (od = true → (step smax oc od spd spc s .nodev opn wr).dHooks = 1)) ∧
     (s.connected = false →
       (step smax oc od spd spc s .nodev opn wr).dHooks = 0 ∧
       (step smax oc od spd spc s .nodev opn wr).closed = false) ∧
     (∀ (rest : List Input),
       runLoop smax oc od s (⟨.nodev, opn, wr, spd, spc⟩ :: rest) =
         ((step smax oc od spd spc s .nodev opn wr).st,
          some .deviceRemoved, 1))) := by
  rcases Bool.eq_false_or_eq_true s.connected with hc | hc <;>
    refine ⟨⟨rfl, rfl, rfl, rfl, rfl, rfl, rfl⟩, ?_, ?_⟩ <;>
      simp [step, discBookkeeping, runLoop, hc]

/-- Witness for `read_error_paths` at a concrete Connected state. -/
theorem read_error_paths_witness :
    ((step 2 true true true true (St.mk true 1 true) .zero .ok .ok).st
        = St.mk true 1 true ∧
     (step 2 true true true true (St.mk true 1 true) .zero .ok .ok).exit = none ∧
     (step 2 true true true true (St.mk true 1 true) .zero .ok .ok).dHooks = 0 ∧
     (step 2 true true true true (St.mk true 1 true) .zero .ok .ok).cHooks = 0 ∧
     (step 2 true true true true (St.mk true 1 true) .zero .ok .ok).closed = false ∧
     (step 2 true true true true (St.mk true 1 true) .zero .ok .ok).wrote = false ∧
     (step 2 true true true true (St.mk true 1 true) .zero .ok .ok).sleepSecs = 0) ∧
    ((step 2 true true true true (St.mk true 1 true) .shortErr .ok .ok).exit = none ∧
     (step 2 true true true true (St.mk true 1 true) .shortErr .ok .ok).sleepSecs = 1 ∧
     (step 2 true true true true (St.mk true 1 true) .shortErr .ok .ok).wrote = false ∧
     (step 2 true true true true (St.mk true 1 true) .shortErr .ok .ok).st.connected
        = false ∧
     ((St.mk true 1 true).connected = true →
       (step 2 true true true true (St.mk true 1 true) .shortErr .ok .ok).closed
          = true ∧
       (true = true →
         (step 2 true true true true (St.mk true 1 true) .shortErr .ok .ok).dHooks
            = 1)) ∧
     ((St.mk true 1 true).connected = false →
       (step 2 true true true true (St.mk true 1 true) .shortErr .ok .ok).st
          = St.mk true 1 true ∧
       (step 2 true true true true (St.mk true 1 true) .shortErr .ok .ok).dHooks
          = 0 ∧
       (step 2 true true true true (St.mk true 1 true) .shortErr .ok .ok).closed
          = false)) ∧
    ((step 2 true true true true (St.mk true 1 true) .nodev .ok .ok).exit
        = some .deviceRemoved ∧
     (step 2 true true true true (St.mk true 1 true) .nodev .ok .ok).sleepSecs = 0 ∧
     (step 2 true true true true (St.mk true 1 true) .nodev .ok .ok).wrote = false ∧
     ((St.mk true 1 true).connected = true →
       (step 2 true true true true (St.mk true 1 true) .nodev .ok .ok).closed
          = true ∧
       (true = true →
         (step 2 true true true true (St.mk true 1 true) .nodev .ok .ok).dHooks
            = 1)) ∧
     ((St.mk true 1 true).connected = false →
       (step 2 true true true true (St.mk true 1 true) .nodev .ok .ok).dHooks = 0 ∧
       (step 2 true true true true (St.mk true 1 true) .nodev .ok .ok).closed
          = false) ∧
     (∀ (rest : List Input),
       runLoop 2 true true (St.mk true 1 true)
           (⟨.nodev, .ok, .ok, true, true⟩ :: rest) =
         ((step 2 true true true true (St.mk true 1 true) .nodev .ok .ok).st,
          some .deviceRemoved, 1))) :=
  read_error_paths 2 true true true true (St.mk true 1 true) .ok .ok

/-- C7: write/open-outcome handling. A would-block write behaves exactly
like a successful write (the block is dropped with no change to state,
counter, handle, hooks, or loop continuation); a write attempt that
fails with any other error terminates the loop; an open failure during a
reconnection attempt terminates the loop. -/
theorem write_error_paths (smax : Nat) (oc od spd spc : Bool) (s : St)
    (rr : ReadRes) (opn : OpenRes) (b : Bool) (wr : WriteRes) :
    (step smax oc od spd spc s rr opn .wouldBlock =
      step smax oc od spd spc s rr opn .ok) ∧
    ((step smax oc od spd spc s rr opn .err).wrote = true →
      (step smax oc od spd spc s rr opn .err).exit = some .writeFailed) ∧
    (reconnects smax (afterTrigger smax (afterDetect smax s b)) = true →
      (step smax oc od spd spc s (.full b) .fail wr).exit
        = some .openFailed) := by
  refine ⟨?_, ?_, ?_⟩
  · cases rr with
    | zero => rfl
    | nodev => rfl
    | shortErr => rfl
    | full b2 =>
        rw [step, step]
        exact stepFull_wouldBlock_eq_ok smax oc od spd spc s b2 opn
  · cases rr with
    | zero => intro h; exact absurd h (by simp [step])
    | nodev => intro h; exact absurd h (by rw [step]; simp)
    | shortErr => intro h; exact absurd h (by rw [step]; simp)
    | full b2 =>
        intro h
        rw [step] at h ⊢
        rw [stepFull_wrote] at h
        by_cases hrf : reconnects smax
            (afterTrigger smax (afterDetect smax s b2)) = true ∧ opn = .fail
        · rw [if_pos hrf] at h
          exact absurd h (by simp)
        · rw [if_neg hrf] at h
          have hs : (afterTrigger smax (afterDetect smax s b2)).silence < smax :=
            of_decide_eq_true h
          rw [stepFull_exit, if_neg hrf, if_pos ⟨hs, rfl⟩]
  · intro hrec
    rw [step, stepFull_exit, if_pos ⟨hrec, rfl⟩]

/-- Witness for `write_error_paths`: a Disconnected state with the
counter at 0 and a silent full read, so the reconnection path runs. -/
theorem write_error_paths_witness :
    (step 3 true true true true (St.mk false 0 false) (.full true) .ok .wouldBlock =
      step 3 true true true true (St.mk false 0 false) (.full true) .ok .ok) ∧
    ((step 3 true true true true (St.mk false 0 false) (.full true) .ok .err).wrote
        = true →
      (step 3 true true true true (St.mk false 0 false) (.full true) .ok .err).exit
        = some .writeFailed) ∧
    (reconnects 3 (afterTrigger 3 (afterDetect 3 (St.mk false 0 false) true))
        = true →
      (step 3 true true true true (St.mk false 0 false) (.full true) .fail .ok).exit
        = some .openFailed) :=
  write_error_paths 3 true true true true (St.mk false 0 false)
    (.full true) .ok true .ok

theorem afterDetect_connected (smax : Nat) (s : St) (b : Bool) :
    (afterDetect smax s b).connected = s.connected := rfl

theorem trigFires_connected (smax : Nat) (s1 : St)
    (h : trigFires smax s1 = true) : s1.connected = true := by
  rw [trigFires, Bool.and_eq_true] at h
  exact h.1

theorem trigFires_silence (smax : Nat) (s1 : St)
    (h : trigFires smax s1 = true) : s1.silence = smax := by
  rw [trigFires, Bool.and_eq_true] at h
  simpa using h.2

theorem afterTrigger_of_trig (smax : Nat) (s1 : St)
    (h : trigFires smax s1 = true) :
    afterTrigger smax s1 = St.mk false (s1.silence + 1) false := by
  rw [afterTrigger, if_pos h]

theorem afterTrigger_of_not_trig (smax : Nat) (s1 : St)
    (h : trigFires smax s1 = false) : afterTrigger smax s1 = s1 := by
  rw [afterTrigger]
  simp [h]

theorem reconnects_of_trig (smax : Nat) (s1 : St)
    (h : trigFires smax s1 = true) :
    reconnects smax (afterTrigger smax s1) = false := by
  rw [afterTrigger_of_trig smax s1 h, reconnects, trigFires_silence smax s1 h]
  simp [show ¬ (smax + 1 < smax) by omega]

/-- C8: with both hook paths configured, each iteration launches the
connect hook exactly once when it makes a Disconnected→Connected
transition (and 0 times otherwise) and the disconnect hook exactly once
when it makes a Connected→Disconnected transition (0 otherwise), on
every read path including short/error reads and device removal; and the
fork outcome of a hook never influences the resulting state, exit, or
hook counts of the iteration — spawn failure is non-fatal. -/
theorem hook_invocation_exact (smax : Nat) (spd spc : Bool) (s : St)
    (rr : ReadRes) (opn : OpenRes) (wr : WriteRes) :
    ((step smax true true spd spc s rr opn wr).cHooks =
      if s.connected = false ∧
          (step smax true true spd spc s rr opn wr).st.connected = true
      then 1 else 0) ∧
    ((step smax true true spd spc s rr opn wr).dHooks =
      if s.connected = true ∧
          (step smax true true spd spc s rr opn wr).st.connected = false
      then 1 else 0) ∧
    (∀ oc od spd2 spc2,
      (step smax oc od spd2 spc2 s rr opn wr).st
        = (step smax oc od spd spc s rr opn wr).st ∧
      (step smax oc od spd2 spc2 s rr opn wr).exit
        = (step smax oc od spd spc s rr opn wr).exit ∧
      (step smax oc od spd2 spc2 s rr opn wr).dHooks
        = (step smax oc od spd spc s rr opn wr).dHooks ∧
      (step smax oc od spd2 spc2 s rr opn wr).cHooks
        = (step smax oc od spd spc s rr opn wr).cHooks) := by
  refine ⟨?_, ?_, ?_⟩
  · cases rr with
    | zero =>
        rcases Bool.eq_false_or_eq_true s.connected with hc | hc <;>
          simp [step, hc]
    | nodev =>
        rcases Bool.eq_false_or_eq_true s.connected with hc | hc <;>
          simp [step, discBookkeeping, hc]
    | shortErr =>
        rcases Bool.eq_false_or_eq_true s.connected with hc | hc <;>
          simp [step, discBookkeeping, hc]
    | full b =>
        rw [step, stepFull_cHooks, stepFull_st]
        by_cases hro : reconnects smax
            (afterTrigger smax (afterDetect smax s b)) = true ∧ opn = .ok
        · have hsc : s.connected = false := by
            rcases Bool.eq_false_or_eq_true
                (trigFires smax (afterDetect smax s b)) with ht | ht
            · exfalso
              rw [reconnects_of_trig smax _ ht] at hro
              exact Bool.false_ne_true hro.1
            · have h2 := hro.1
              rw [afterTrigger_of_not_trig smax _ ht, reconnects,
                Bool.and_eq_true, afterDetect_connected] at h2
              simpa using h2.1
          rw [if_pos hro, if_pos hro]
          simp [hsc]
        · rw [if_neg hro, if_neg hro]
          rcases Bool.eq_false_or_eq_true
              (trigFires smax (afterDetect smax s b)) with ht | ht
          · have h1 : s.connected = true := by
              have := trigFires_connected smax _ ht
              rwa [afterDetect_connected] at this
            simp [h1]
          · rw [afterTrigger_of_not_trig smax _ ht, afterDetect_connected]
            rcases Bool.eq_false_or_eq_true s.connected with hc | hc <;>
              simp [hc]
  · cases rr with
    | zero =>
        rcases Bool.eq_false_or_eq_true s.connected with hc | hc <;>
          simp [step, hc]
    | nodev =>
        rcases Bool.eq_false_or_eq_true s.connected with hc | hc <;>
          simp [step, discBookkeeping, hc]
    | shortErr =>
        rcases Bool.eq_false_or_eq_true s.connected with hc | hc <;>
          simp [step, discBookkeeping, hc]
    | full b =>
        rw [step, stepFull_dHooks, stepFull_st]
        rcases Bool.eq_false_or_eq_true
            (trigFires smax (afterDetect smax s b)) with ht | ht
        · have hs1 : s.connected = true := by
            have := trigFires_connected smax _ ht
            rwa [afterDetect_connected] at this
          have hrec := reconnects_of_trig smax _ ht
          have hro : ¬ (reconnects smax
              (afterTrigger smax (afterDetect smax s b)) = true
              ∧ opn = .ok) := by
            intro hcon
            rw [hrec] at hcon
            exact Bool.false_ne_true hcon.1
          rw [if_neg hro, afterTrigger_of_trig smax _ ht]
          simp [ht, hs1]
        · by_cases hro : reconnects smax
              (afterTrigger smax (afterDetect smax s b)) = true ∧ opn = .ok
          · rw [if_pos hro]
            simp [ht]
          · rw [if_neg hro, afterTrigger_of_not_trig smax _ ht,
              afterDetect_connected]
            rcases Bool.eq_false_or_eq_true s.connected with hc | hc <;>
              simp [ht, hc]
  · intro oc od spd2 spc2
    cases rr with
    | zero => exact ⟨rfl, rfl, rfl, rfl⟩
    | nodev =>
        rcases Bool.eq_false_or_eq_true s.connected with hc | hc <;>
          refine ⟨?_, ?_, ?_, ?_⟩ <;> simp [step, discBookkeeping, hc]
    | shortErr =>
        rcases Bool.eq_false_or_eq_true s.connected with hc | hc <;>
          refine ⟨?_, ?_, ?_, ?_⟩ <;> simp [step, discBookkeeping, hc]
    | full b =>
        refine ⟨?_, ?_, ?_, ?_⟩ <;> rw [step, step]
        · rw [stepFull_st, stepFull_st]
        · rw [stepFull_exit, stepFull_exit]
        · rw [stepFull_dHooks, stepFull_dHooks]
        · rw [stepFull_cHooks, stepFull_cHooks]

end Alsa2pipe
